import Mathlib

/- Shallow embedding of the ml-stutter live-performance micro-looper core:
   TimeKeeper (timekeeper.cpp), the quantization helpers
   (effect_quantization.cpp), the CHOKE engine and controller
   (effect_manager.h second section, choke_controller.cpp), the FREEZE
   engine (audio_freeze.h), the STUTTER engine (audio_stutter.h, current
   eight-state version) and the SPSC ring buffer (trace.cpp companion
   header).  Machine integers are modelled as Nat; a reduction modulo
   2^32 is written explicitly at the points where the source narrows a
   value to uint32 (the samples-per-beat conversion, the beat counter,
   the queue indices).  Audio sample data is modelled only where a claim
   observes it (the FREEZE playback loop); elsewhere only positions,
   lengths and flags are relevant and buffers are omitted. -/

/- Modulus of a 32-bit unsigned machine word. -/
def U32 : Nat := 4294967296

/- AUDIO_BLOCK_SAMPLES from the Teensy audio library, fixed at 128. -/
def AUDIO_BLOCK_SAMPLES : Nat := 128

namespace TimeKeeper

/- Constants from utils/timekeeper.h. -/
def SAMPLE_RATE : Nat := 44100
def BEATS_PER_BAR : Nat := 4
def MIDI_PPQN : Nat := 24
def DEFAULT_BPM : Nat := 120
def DEFAULT_SAMPLES_PER_BEAT : Nat := (SAMPLE_RATE * 60) / DEFAULT_BPM

/- TransportState from timekeeper.h. -/
inductive TransportState where
  | STOPPED
  | PLAYING
  | RECORDING
  deriving DecidableEq, Repr

/- The static state of class TimeKeeper: s_samplePosition (uint64),
   s_beatNumber, s_tickInBeat, s_samplesPerBeat (uint32 each),
   s_transportState and s_beatFlag. -/
structure State where
  samplePosition : Nat
  beatNumber : Nat
  tickInBeat : Nat
  samplesPerBeat : Nat
  transportState : TransportState
  beatFlag : Bool
  deriving DecidableEq, Repr

/- State after TimeKeeper::reset, which is also the static initial state. -/
def resetState : State :=
  { samplePosition := 0
    beatNumber := 0
    tickInBeat := 0
    samplesPerBeat := DEFAULT_SAMPLES_PER_BEAT
    transportState := TransportState.STOPPED
    beatFlag := false }

/- TimeKeeper::syncToMIDIClock.  The 64-bit quotient
   (tickPeriodUs * 24 * 44100) / 1000000 is assigned to a uint32 local
   spb, which reduces it modulo 2^32; the range check then runs on that
   narrowed value.  The multiplication cannot overflow uint64, so only
   the narrowing needs an explicit modulus. -/
def syncToMIDIClock (tickPeriodUs : Nat) (s : State) : State :=
  let beatPeriodUs := tickPeriodUs * MIDI_PPQN
  let spb := ((beatPeriodUs * SAMPLE_RATE) / 1000000) % U32
  if 8000 ≤ spb ∧ spb ≤ 100000 then { s with samplesPerBeat := spb } else s

/- TimeKeeper::incrementTick.  The local tick is a uint32 copy that is
   incremented, compared against MIDI_PPQN and stored back; the beat
   counter is a uint32 incremented with a fetch-add, hence reduced
   modulo 2^32. -/
def incrementTick (s : State) : State :=
  if MIDI_PPQN ≤ (s.tickInBeat + 1) % U32 then
    { s with
        tickInBeat := 0
        beatNumber := (s.beatNumber + 1) % U32
        beatFlag := true }
  else
    { s with tickInBeat := (s.tickInBeat + 1) % U32 }

/- TimeKeeper::samplesToNextBeat.  sampleWithinBeat is the uint64
   position reduced modulo the uint32 samples-per-beat, so it fits a
   uint32 and the subtraction cannot underflow. -/
def samplesToNextBeat (s : State) : Nat :=
  let spb := s.samplesPerBeat
  let sampleWithinBeat := s.samplePosition % spb
  let samplesToNext := spb - sampleWithinBeat
  if sampleWithinBeat ≤ 16 then 0 else samplesToNext

/- TimeKeeper::samplesToNextSubdivision.  Tick-based: the samples
   elapsed in the current beat are derived from tickInBeat, not from
   the sample position.  Every local is a uint32, so the
   elapsed-samples product, the next-boundary product and both
   subtractions are reduced modulo 2^32; the uint32 subtraction of
   b < 2^32 from a is written (a + 2^32 - b) % 2^32. -/
def samplesToNextSubdivision (s : State) (subdivision : Nat) : Nat :=
  let spb := s.samplesPerBeat
  let samplesPerTick := spb / MIDI_PPQN
  let samplesElapsedInBeat := (s.tickInBeat * samplesPerTick) % U32
  if spb ≤ subdivision then
    (spb + U32 - samplesElapsedInBeat) % U32
  else
    let subdivisionIndex := samplesElapsedInBeat / subdivision
    let nextSubdivisionStart := ((subdivisionIndex + 1) * subdivision) % U32
    let clamped := if spb < nextSubdivisionStart then spb else nextSubdivisionStart
    (clamped + U32 - samplesElapsedInBeat) % U32

end TimeKeeper

namespace EffectQuantization

/- Quantization selector from effect_quantization.h. -/
inductive Quantization where
  | QUANT_32
  | QUANT_16
  | QUANT_8
  | QUANT_4
  deriving DecidableEq, Repr

/- EffectQuantization::calculateQuantizedDuration, reading
   samplesPerBeat from the TimeKeeper state. -/
def calculateQuantizedDuration (quant : Quantization) (tk : TimeKeeper.State) : Nat :=
  match quant with
  | Quantization.QUANT_32 => tk.samplesPerBeat / 8
  | Quantization.QUANT_16 => tk.samplesPerBeat / 4
  | Quantization.QUANT_8 => tk.samplesPerBeat / 2
  | Quantization.QUANT_4 => tk.samplesPerBeat

/- EffectQuantization::samplesToNextQuantizedBoundary. -/
def samplesToNextQuantizedBoundary (quant : Quantization) (tk : TimeKeeper.State) : Nat :=
  TimeKeeper.samplesToNextSubdivision tk (calculateQuantizedDuration quant tk)

/- The static lookaheadOffset, default 128 samples. -/
def lookaheadOffset : Nat := 128

end EffectQuantization

/- ChokeLength and ChokeOnset enums from the choke engine header. -/
inductive ChokeLength where
  | FREE
  | QUANTIZED
  deriving DecidableEq, Repr

inductive ChokeOnset where
  | FREE
  | QUANTIZED
  deriving DecidableEq, Repr

namespace AudioEffectChoke

/- State of AudioEffectChoke.  The two gains are IEEE floats in the
   source but the operations and checks modelled here only ever assign
   the exactly representable constants 0.0 and 1.0, so they are carried
   as rationals.  The per-sample gain ramp applied to audio data is not
   modelled; no claim observes it. -/
structure State where
  currentGain : ℚ
  targetGain : ℚ
  isEnabled : Bool
  lengthMode : ChokeLength
  onsetMode : ChokeOnset
  releaseAtSample : Nat
  onsetAtSample : Nat
  deriving DecidableEq, Repr

/- Constructor state of AudioEffectChoke. -/
def init : State :=
  { currentGain := 1
    targetGain := 1
    isEnabled := false
    lengthMode := ChokeLength.FREE
    onsetMode := ChokeOnset.FREE
    releaseAtSample := 0
    onsetAtSample := 0 }

/- AudioEffectChoke::enable. -/
def enable (s : State) : State :=
  { s with targetGain := 0, isEnabled := true }

/- AudioEffectChoke::disable. -/
def disable (s : State) : State :=
  { s with targetGain := 1, isEnabled := false }

/- AudioEffectChoke::toggle. -/
def toggle (s : State) : State :=
  if s.isEnabled then disable s else enable s

/- AudioEffectChoke::scheduleOnset. -/
def scheduleOnset (onsetSample : Nat) (s : State) : State :=
  { s with onsetAtSample := onsetSample }

/- AudioEffectChoke::scheduleRelease. -/
def scheduleRelease (releaseSample : Nat) (s : State) : State :=
  { s with releaseAtSample := releaseSample }

/- AudioEffectChoke::cancelScheduledOnset. -/
def cancelScheduledOnset (s : State) : State :=
  { s with onsetAtSample := 0 }

/- The scheduled-transition portion of AudioEffectChoke::update: the
   onset check followed by the release check, with currentSample the
   sample position at the start of the block and blockEndSample
   currentSample + AUDIO_BLOCK_SAMPLES.  The remainder of update only
   transforms audio data through the gain ramp. -/
def updateScheduled (currentSample : Nat) (s : State) : State :=
  let blockEndSample := currentSample + AUDIO_BLOCK_SAMPLES
  let s1 :=
    if 0 < s.onsetAtSample ∧ currentSample ≤ s.onsetAtSample ∧
        s.onsetAtSample < blockEndSample then
      { s with targetGain := 0, isEnabled := true, onsetAtSample := 0 }
    else s
  if 0 < s1.releaseAtSample ∧ currentSample ≤ s1.releaseAtSample ∧
      s1.releaseAtSample < blockEndSample then
    { s1 with targetGain := 1, isEnabled := false, releaseAtSample := 0 }
  else s1

end AudioEffectChoke

namespace ChokeController

open EffectQuantization

/- ChokeController::handleButtonPress for a press command that targets
   CHOKE, after the command filtering: branches on the onset mode, and
   for a quantized onset schedules the boundary minus the lookahead
   (clamped at zero) relative to the current sample position.  quant is
   the global quantization read from EffectQuantization. -/
def handleButtonPress (tk : TimeKeeper.State) (quant : Quantization)
    (c : AudioEffectChoke.State) : AudioEffectChoke.State :=
  if c.onsetMode = ChokeOnset.FREE then
    let c1 := AudioEffectChoke.enable c
    if c.lengthMode = ChokeLength.QUANTIZED then
      let durationSamples := calculateQuantizedDuration quant tk
      AudioEffectChoke.scheduleRelease (tk.samplePosition + durationSamples) c1
    else c1
  else
    let samplesToNext := samplesToNextQuantizedBoundary quant tk
    let lookahead := lookaheadOffset
    let adjustedSamples := if lookahead < samplesToNext then samplesToNext - lookahead else 0
    let onsetSample := tk.samplePosition + adjustedSamples
    let c1 := AudioEffectChoke.scheduleOnset onsetSample c
    if c.lengthMode = ChokeLength.QUANTIZED then
      let durationSamples := calculateQuantizedDuration quant tk
      AudioEffectChoke.scheduleRelease (onsetSample + durationSamples) c1
    else c1

end ChokeController

namespace AudioEffectFreeze

/- FREEZE_BUFFER_SAMPLES = (3 ms * 44100) / 1000 = 132 samples. -/
def FREEZE_BUFFER_SAMPLES : Nat := (3 * TimeKeeper.SAMPLE_RATE) / 1000

/- State of AudioEffectFreeze.  The circular buffers are carried as
   functions from index to 16-bit sample value so that the playback
   loop can be evaluated; the scheduled onset and release fields and
   the mode enums are write-only for the claims modelled here and are
   kept for completeness of the data model. -/
structure State where
  writePos : Nat
  readPos : Nat
  isEnabled : Bool
  releaseAtSample : Nat
  onsetAtSample : Nat
  bufferL : Nat → Int
  bufferR : Nat → Int

/- AudioEffectFreeze::enable: the read position is captured from the
   write position unconditionally, then the enabled flag is set. -/
def enable (s : State) : State :=
  { s with readPos := s.writePos, isEnabled := true }

/- AudioEffectFreeze::disable. -/
def disable (s : State) : State :=
  { s with isEnabled := false }

/- AudioEffectFreeze::toggle. -/
def toggle (s : State) : State :=
  if s.isEnabled then disable s else enable s

/- One iteration of the frozen-mode read loop: emit buffer[readPos] and
   advance the read position circularly at FREEZE_BUFFER_SAMPLES. -/
def advanceReadPos (rp : Nat) : Nat :=
  if FREEZE_BUFFER_SAMPLES ≤ rp + 1 then 0 else rp + 1

/- The n-sample frozen-mode read loop of AudioEffectFreeze::update,
   returning the emitted samples and the final read position. -/
def readLoop : Nat → (Nat → Int) → Nat → List Int × Nat
  | 0, _, rp => ([], rp)
  | n + 1, buf, rp =>
    let out := buf rp
    let rest := readLoop n buf (advanceReadPos rp)
    (out :: rest.1, rest.2)

/- The left-channel audio block AudioEffectFreeze::update emits while
   frozen (one block of AUDIO_BLOCK_SAMPLES samples). -/
def frozenBlockL (s : State) : List Int :=
  (readLoop AUDIO_BLOCK_SAMPLES s.bufferL s.readPos).1

end AudioEffectFreeze

/- StutterState from audio_stutter.h (current eight-state machine). -/
inductive StutterState where
  | IDLE_NO_LOOP
  | IDLE_WITH_LOOP
  | WAIT_CAPTURE_START
  | CAPTURING
  | WAIT_CAPTURE_END
  | WAIT_PLAYBACK_ONSET
  | PLAYING
  | WAIT_PLAYBACK_LENGTH
  deriving DecidableEq, Repr

namespace AudioEffectStutter

/- STUTTER_BUFFER_SAMPLES: one bar at the 70 BPM minimum tempo,
   static_cast<size_t>((1 / (70 / 60.0)) * 44100) * 4 = 37800 * 4. -/
def STUTTER_BUFFER_SAMPLES : Nat := 37800 * 4

/- State of AudioEffectStutter: buffer positions, capture length, the
   state machine, the four scheduled sample positions and the latched
   stutter-held flag.  The four FREE/QUANTIZED mode enums are never
   read by the engine itself (only by the controller through getters)
   and the sample data of the capture buffers is observed by no claim,
   so both are omitted from the model. -/
structure State where
  writePos : Nat
  readPos : Nat
  captureLength : Nat
  state : StutterState
  captureStartAtSample : Nat
  captureEndAtSample : Nat
  playbackOnsetAtSample : Nat
  playbackLengthAtSample : Nat
  stutterHeld : Bool
  deriving DecidableEq, Repr

/- Constructor state of AudioEffectStutter. -/
def init : State :=
  { writePos := 0
    readPos := 0
    captureLength := 0
    state := StutterState.IDLE_NO_LOOP
    captureStartAtSample := 0
    captureEndAtSample := 0
    playbackOnsetAtSample := 0
    playbackLengthAtSample := 0
    stutterHeld := false }

/- AudioEffectStutter::enable (start playback, used for free onset). -/
def enable (s : State) : State :=
  { s with readPos := 0, state := StutterState.PLAYING }

/- AudioEffectStutter::disable (stop playback and clear the loop). -/
def disable (s : State) : State :=
  { s with
      state := StutterState.IDLE_NO_LOOP
      captureLength := 0
      writePos := 0
      readPos := 0 }

/- AudioEffectStutter::isEnabled. -/
def isEnabled (s : State) : Bool :=
  s.state ≠ StutterState.IDLE_NO_LOOP ∧ s.state ≠ StutterState.IDLE_WITH_LOOP

/- AudioEffectStutter::toggle. -/
def toggle (s : State) : State :=
  if isEnabled s then disable s else enable s

/- AudioEffectStutter::startCapture. -/
def startCapture (s : State) : State :=
  { s with writePos := 0, captureLength := 0, state := StutterState.CAPTURING }

/- AudioEffectStutter::scheduleCaptureStart. -/
def scheduleCaptureStart (sample : Nat) (s : State) : State :=
  { s with captureStartAtSample := sample, state := StutterState.WAIT_CAPTURE_START }

/- AudioEffectStutter::cancelCaptureStart. -/
def cancelCaptureStart (s : State) : State :=
  { s with captureStartAtSample := 0, state := StutterState.IDLE_NO_LOOP }

/- AudioEffectStutter::endCapture (free capture end, button released);
   stutterHeld is the button state passed by the controller. -/
def endCapture (stutterHeld : Bool) (s : State) : State :=
  if 0 < s.writePos then
    if stutterHeld then
      { s with
          captureLength := s.writePos
          readPos := 0
          state := StutterState.PLAYING }
    else
      { s with
          captureLength := s.writePos
          state := StutterState.IDLE_WITH_LOOP }
  else
    { s with state := StutterState.IDLE_NO_LOOP }

/- AudioEffectStutter::scheduleCaptureEnd, latching the button state. -/
def scheduleCaptureEnd (sample : Nat) (stutterHeld : Bool) (s : State) : State :=
  { s with
      captureEndAtSample := sample
      stutterHeld := stutterHeld
      state := StutterState.WAIT_CAPTURE_END }

/- AudioEffectStutter::startPlayback. -/
def startPlayback (s : State) : State :=
  { s with readPos := 0, state := StutterState.PLAYING }

/- AudioEffectStutter::schedulePlaybackOnset. -/
def schedulePlaybackOnset (sample : Nat) (s : State) : State :=
  { s with playbackOnsetAtSample := sample, state := StutterState.WAIT_PLAYBACK_ONSET }

/- AudioEffectStutter::stopPlayback. -/
def stopPlayback (s : State) : State :=
  { s with state := StutterState.IDLE_WITH_LOOP }

/- AudioEffectStutter::schedulePlaybackLength. -/
def schedulePlaybackLength (sample : Nat) (s : State) : State :=
  { s with playbackLengthAtSample := sample, state := StutterState.WAIT_PLAYBACK_LENGTH }

/- Scheduled capture-start check at the top of update.  The source
   condition is captureStartAt > 0 and currentSample >= captureStartAt
   and currentSample < blockEndSample; the last conjunct compares the
   block start against its own end and is kept verbatim. -/
def captureStartCheck (currentSample : Nat) (s : State) : State :=
  if 0 < s.captureStartAtSample ∧ s.captureStartAtSample ≤ currentSample ∧
      currentSample < currentSample + AUDIO_BLOCK_SAMPLES then
    { s with
        writePos := 0
        captureLength := 0
        state := StutterState.CAPTURING
        captureStartAtSample := 0 }
  else s

/- Scheduled capture-end check of update: ends the capture using the
   latched stutterHeld flag. -/
def captureEndCheck (currentSample : Nat) (s : State) : State :=
  if 0 < s.captureEndAtSample ∧ s.captureEndAtSample ≤ currentSample ∧
      currentSample < currentSample + AUDIO_BLOCK_SAMPLES then
    if 0 < s.writePos then
      if s.stutterHeld then
        { s with
            captureLength := s.writePos
            readPos := 0
            state := StutterState.PLAYING
            captureEndAtSample := 0 }
      else
        { s with
            captureLength := s.writePos
            state := StutterState.IDLE_WITH_LOOP
            captureEndAtSample := 0 }
    else
      { s with state := StutterState.IDLE_NO_LOOP, captureEndAtSample := 0 }
  else s

/- Scheduled playback-onset check of update. -/
def playbackOnsetCheck (currentSample : Nat) (s : State) : State :=
  if 0 < s.playbackOnsetAtSample ∧ s.playbackOnsetAtSample ≤ currentSample ∧
      currentSample < currentSample + AUDIO_BLOCK_SAMPLES then
    { s with
        readPos := 0
        state := StutterState.PLAYING
        playbackOnsetAtSample := 0 }
  else s

/- Scheduled playback-length check of update. -/
def playbackLengthCheck (currentSample : Nat) (s : State) : State :=
  if 0 < s.playbackLengthAtSample ∧ s.playbackLengthAtSample ≤ currentSample ∧
      currentSample < currentSample + AUDIO_BLOCK_SAMPLES then
    { s with state := StutterState.IDLE_WITH_LOOP, playbackLengthAtSample := 0 }
  else s

/- One step of the playback read-position advance: increment and loop
   back to 0 on reaching captureLength. -/
def advanceRead (captureLength rp : Nat) : Nat :=
  if captureLength ≤ rp + 1 then 0 else rp + 1

/- The read-position advance over n played samples. -/
def advanceReadN : Nat → Nat → Nat → Nat
  | 0, _, rp => rp
  | n + 1, captureLength, rp => advanceReadN n captureLength (advanceRead captureLength rp)

/- The block write of the capturing states: the loop stores samples
   while the write position is below STUTTER_BUFFER_SAMPLES, advancing
   it by at most AUDIO_BLOCK_SAMPLES and never past the buffer end. -/
def captureAdvance (wp : Nat) : Nat :=
  if wp < STUTTER_BUFFER_SAMPLES then
    min (wp + AUDIO_BLOCK_SAMPLES) STUTTER_BUFFER_SAMPLES
  else wp

/- The state-machine switch of update.  inputAvail tells whether both
   input blocks were received, allocAvail whether output blocks could
   be allocated.  In the capturing states the block write advances
   writePos via captureAdvance, after which the buffer-full
   auto-transition fires, using the latched stutterHeld flag and
   clearing any scheduled capture end.  In the playing states the read
   position advances with wrap at captureLength.  Sample data itself is
   not tracked. -/
def processBlock (inputAvail allocAvail : Bool) (s : State) : State :=
  if s.state = StutterState.CAPTURING ∨ s.state = StutterState.WAIT_CAPTURE_END then
    if inputAvail then
      if STUTTER_BUFFER_SAMPLES ≤ captureAdvance s.writePos then
        if s.stutterHeld then
          { s with
              writePos := captureAdvance s.writePos
              captureLength := captureAdvance s.writePos
              readPos := 0
              state := StutterState.PLAYING
              captureEndAtSample := 0 }
        else
          { s with
              writePos := captureAdvance s.writePos
              captureLength := captureAdvance s.writePos
              state := StutterState.IDLE_WITH_LOOP
              captureEndAtSample := 0 }
      else
        { s with writePos := captureAdvance s.writePos }
    else s
  else if s.state = StutterState.PLAYING ∨ s.state = StutterState.WAIT_PLAYBACK_LENGTH then
    if allocAvail then
      { s with readPos := advanceReadN AUDIO_BLOCK_SAMPLES s.captureLength s.readPos }
    else s
  else s

/- AudioEffectStutter::update: the four scheduled checks in source
   order followed by the state-machine switch. -/
def update (currentSample : Nat) (inputAvail allocAvail : Bool) (s : State) : State :=
  processBlock inputAvail allocAvail
    (playbackLengthCheck currentSample
      (playbackOnsetCheck currentSample
        (captureEndCheck currentSample
          (captureStartCheck currentSample s))))

/- Reachability by the public operations of the engine, from the
   constructor state, with arbitrary arguments supplied by callers. -/
inductive Reachable : State → Prop
  | init : Reachable init
  | enable {s} : Reachable s → Reachable (enable s)
  | disable {s} : Reachable s → Reachable (disable s)
  | toggle {s} : Reachable s → Reachable (toggle s)
  | startCapture {s} : Reachable s → Reachable (startCapture s)
  | scheduleCaptureStart {s} (sample : Nat) :
      Reachable s → Reachable (scheduleCaptureStart sample s)
  | cancelCaptureStart {s} : Reachable s → Reachable (cancelCaptureStart s)
  | endCapture {s} (held : Bool) : Reachable s → Reachable (endCapture held s)
  | scheduleCaptureEnd {s} (sample : Nat) (held : Bool) :
      Reachable s → Reachable (scheduleCaptureEnd sample held s)
  | startPlayback {s} : Reachable s → Reachable (startPlayback s)
  | schedulePlaybackOnset {s} (sample : Nat) :
      Reachable s → Reachable (schedulePlaybackOnset sample s)
  | stopPlayback {s} : Reachable s → Reachable (stopPlayback s)
  | schedulePlaybackLength {s} (sample : Nat) :
      Reachable s → Reachable (schedulePlaybackLength sample s)
  | update {s} (currentSample : Nat) (inputAvail allocAvail : Bool) :
      Reachable s → Reachable (update currentSample inputAvail allocAvail s)

end AudioEffectStutter

/- CommandType from command.h. -/
inductive CommandType where
  | NONE
  | EFFECT_TOGGLE
  | EFFECT_ENABLE
  | EFFECT_DISABLE
  | EFFECT_SET_PARAM
  deriving DecidableEq, Repr

/- The fallback dispatch of EffectManager::executeCommand as it acts on
   the STUTTER engine: TOGGLE, ENABLE and DISABLE map to the engine
   operations of the same name; NONE is a no-op, and SET_PARAM forwards
   to the base-class setParameter, which the stutter engine does not
   override, leaving its state unchanged. -/
def executeCommandOnStutter (ct : CommandType) (s : AudioEffectStutter.State) :
    AudioEffectStutter.State :=
  match ct with
  | CommandType.NONE => s
  | CommandType.EFFECT_TOGGLE => AudioEffectStutter.toggle s
  | CommandType.EFFECT_ENABLE => AudioEffectStutter.enable s
  | CommandType.EFFECT_DISABLE => AudioEffectStutter.disable s
  | CommandType.EFFECT_SET_PARAM => s

namespace SPSCQueue

/- State of SPSCQueue<T, SIZE>: two uint32 indices written only by
   their owning side, and the element buffer.  The buffer is carried as
   a function from slot index to element. -/
structure Queue (T : Type) where
  writeIdx : Nat
  readIdx : Nat
  buffer : Nat → T

/- SPSCQueue::push.  The masking writes of the source use the bitwise
   and with SIZE - 1, which for the power-of-two SIZE required by the
   static assertion equals reduction modulo SIZE; the index increment
   is uint32 arithmetic. -/
def push {T : Type} (SIZE : Nat) (item : T) (q : Queue T) : Bool × Queue T :=
  if ((q.writeIdx + 1) % U32) % SIZE = q.readIdx % SIZE then
    (false, q)
  else
    (true,
      { writeIdx := (q.writeIdx + 1) % U32
        readIdx := q.readIdx
        buffer := fun i => if i = q.writeIdx % SIZE then item else q.buffer i })

/- SPSCQueue::pop, returning the element in place of the out-parameter. -/
def pop {T : Type} (SIZE : Nat) (q : Queue T) : Option T × Queue T :=
  if q.readIdx = q.writeIdx then
    (none, q)
  else
    (some (q.buffer (q.readIdx % SIZE)),
      { q with readIdx := (q.readIdx + 1) % U32 })

/- SPSCQueue::size: (writeIdx - readIdx) & (SIZE - 1) in uint32
   arithmetic. -/
def size {T : Type} (SIZE : Nat) (q : Queue T) : Nat :=
  ((q.writeIdx + U32 - q.readIdx) % U32) % SIZE

/- SPSCQueue::capacity: SIZE - 1, one slot kept empty. -/
def capacity (SIZE : Nat) : Nat := SIZE - 1

/- The number of elements currently stored: pushes minus pops, which
   on the indices is the uint32 difference writeIdx - readIdx. -/
def storedCount {T : Type} (q : Queue T) : Nat :=
  (q.writeIdx + U32 - q.readIdx) % U32

/- Reachability of a queue state from a fresh queue (both indices zero,
   buffer contents arbitrary) by producer pushes and consumer pops. -/
inductive Reachable {T : Type} (SIZE : Nat) : Queue T → Prop
  | init (buf : Nat → T) : Reachable SIZE ⟨0, 0, buf⟩
  | push {q} (item : T) : Reachable SIZE q → Reachable SIZE (push SIZE item q).2
  | pop {q} : Reachable SIZE q → Reachable SIZE (pop SIZE q).2

end SPSCQueue

/- Auxiliary predicate for the stutter engine: the inductive invariant
   relating capture length, write position and read position that the
   reachability proof maintains. -/
def StInv (s : AudioEffectStutter.State) : Prop :=
  s.captureLength ≤ s.writePos ∧
  s.writePos ≤ AudioEffectStutter.STUTTER_BUFFER_SAMPLES ∧
  (s.state = StutterState.PLAYING → 0 < s.captureLength → s.readPos < s.captureLength)

/- Auxiliary predicate for the SPSC queue: the write index is the read
   index advanced by the current element count n, in uint32 arithmetic,
   with n below the power-of-two SIZE. -/
def QInv {T : Type} (SIZE : Nat) (q : SPSCQueue.Queue T) (n : Nat) : Prop :=
  q.writeIdx < U32 ∧ q.readIdx < U32 ∧ n + 1 ≤ SIZE ∧
  q.writeIdx = (q.readIdx + n) % U32

/- Concrete TimeKeeper state for the quantized-onset scenario: sample
   position 1000 at 120 BPM with the tick grid at tick 1, the tick in
   effect 1000 samples into a beat (tick duration 918.75 samples). -/
def tkScenario : TimeKeeper.State :=
  { samplePosition := 1000
    beatNumber := 0
    tickInBeat := 1
    samplesPerBeat := 22050
    transportState := TimeKeeper.TransportState.STOPPED
    beatFlag := false }

/- Choke state armed for a quantized onset with free length. -/
def chokeScenario : AudioEffectChoke.State :=
  { AudioEffectChoke.init with onsetMode := ChokeOnset.QUANTIZED }

/- Concrete FREEZE engine state: frozen, one block into the loop
   (readPos 128) with the write position latched at 0, and buffer
   contents that distinguish slot 128 from slot 0. -/
def freezeLoopState : AudioEffectFreeze.State :=
  { writePos := 0
    readPos := 128
    isEnabled := true
    releaseAtSample := 0
    onsetAtSample := 0
    bufferL := fun i => if i = 128 then 5 else 0
    bufferR := fun _ => 0 }

/-- C1: the claim states that syncToExternalClock computes
samplesPerBeat as (tickPeriodMicros * 24 * 44100) / 1000000 in integer
arithmetic and leaves all state unchanged when that result is outside
[8000, 100000].  Evaluation at tickPeriodMicros = 4057988753 (a valid
uint32): the exact integer quotient is 4294975296, far outside the
range, yet the uint32 narrowing in the source reduces it to 8000, the
range check passes and the value is stored, contradicting the claim
and the rejection intent stated in the source comments. -/
theorem C1_sync_truncation_eval :
    (4057988753 * 24 * 44100) / 1000000 = 4294975296 ∧
    100000 < (4057988753 * 24 * 44100) / 1000000 ∧
    4057988753 < U32 ∧
    (TimeKeeper.syncToMIDIClock 4057988753 TimeKeeper.resetState).samplesPerBeat = 8000 ∧
    TimeKeeper.resetState.samplesPerBeat = 22050 := by
  refine ⟨by norm_num, by norm_num, by norm_num [U32], ?_, by norm_num [TimeKeeper.resetState, TimeKeeper.DEFAULT_SAMPLES_PER_BEAT, TimeKeeper.SAMPLE_RATE, TimeKeeper.DEFAULT_BPM]⟩
  norm_num [TimeKeeper.syncToMIDIClock, TimeKeeper.MIDI_PPQN, TimeKeeper.SAMPLE_RATE, U32]

/- Helper: one call of incrementTick from a state with a valid tick
   counter, written as an explicit case split. -/
theorem incrementTick_step (s : TimeKeeper.State) (ht : s.tickInBeat < 24) :
    TimeKeeper.incrementTick s =
      if s.tickInBeat + 1 = 24 then
        { s with
            tickInBeat := 0
            beatNumber := (s.beatNumber + 1) % U32
            beatFlag := true }
      else { s with tickInBeat := s.tickInBeat + 1 } := by
  have e1 : (s.tickInBeat + 1) % U32 = s.tickInBeat + 1 :=
    Nat.mod_eq_of_lt (by unfold U32; omega)
  unfold TimeKeeper.incrementTick TimeKeeper.MIDI_PPQN
  rw [e1]
  split_ifs with h1 h2 h2
  · rfl
  · omega
  · omega
  · rfl

/- Helper: closed form of n consecutive incrementTick calls while the
   beat counter stays below the uint32 wraparound. -/
theorem incrementTick_closed_form :
    ∀ (n : Nat) (s : TimeKeeper.State), s.tickInBeat < 24 →
    s.beatNumber + (s.tickInBeat + n) / 24 < U32 →
    (TimeKeeper.incrementTick^[n] s).tickInBeat = (s.tickInBeat + n) % 24 ∧
    (TimeKeeper.incrementTick^[n] s).beatNumber = s.beatNumber + (s.tickInBeat + n) / 24 := by
  intro n
  induction n with
  | zero =>
    intro s ht _
    refine ⟨?_, ?_⟩
    · simpa using (Nat.mod_eq_of_lt ht).symm
    · simp [Nat.div_eq_of_lt ht]
  | succ n ih =>
    intro s ht hb
    rw [Function.iterate_succ_apply, incrementTick_step s ht]
    by_cases h24 : s.tickInBeat + 1 = 24
    · rw [if_pos h24]
      have hb1 : s.beatNumber + 1 < U32 := by omega
      have e2 : (s.beatNumber + 1) % U32 = s.beatNumber + 1 := Nat.mod_eq_of_lt hb1
      obtain ⟨r1, r2⟩ := ih
        { s with
            tickInBeat := 0
            beatNumber := (s.beatNumber + 1) % U32
            beatFlag := true }
        (by simp) (by simp [e2]; omega)
      constructor
      · rw [r1]; simp; omega
      · rw [r2]; simp [e2]; omega
    · rw [if_neg h24]
      obtain ⟨r1, r2⟩ := ih { s with tickInBeat := s.tickInBeat + 1 }
        (by simp; omega) (by simp; omega)
      constructor
      · rw [r1]; simp; omega
      · rw [r2]; simp; omega

/-- C2 counterexample: at the reachable-in-principle state with
beatNumber at the uint32 maximum 4294967295 and tickInBeat 23, a
single incrementTick wraps beatNumber to 0, so beatNumber is not
monotonically non-decreasing as the claim states. -/
theorem C2_beat_wrap_counterexample :
    (⟨0, 4294967295, 23, 22050, TimeKeeper.TransportState.STOPPED, false⟩ :
        TimeKeeper.State).tickInBeat < 24 ∧
    (TimeKeeper.incrementTick
        ⟨0, 4294967295, 23, 22050, TimeKeeper.TransportState.STOPPED, false⟩).beatNumber = 0 ∧
    ¬ (⟨0, 4294967295, 23, 22050, TimeKeeper.TransportState.STOPPED, false⟩ :
        TimeKeeper.State).beatNumber ≤
      (TimeKeeper.incrementTick
        ⟨0, 4294967295, 23, 22050, TimeKeeper.TransportState.STOPPED, false⟩).beatNumber := by
  refine ⟨by norm_num, ?_, ?_⟩ <;>
    norm_num [TimeKeeper.incrementTick, TimeKeeper.MIDI_PPQN, U32]

/-- C2 (amended): for every state with tickInBeat < 24, one call to
incrementTick increments tickInBeat, wrapping to 0 with a beat advance
and the beat flag set when the incremented value reaches 24; tickInBeat
stays below 24.  The beat counter is uint32 arithmetic, so beatNumber
is non-decreasing and 24 consecutive calls advance beatNumber by
exactly 1 provided beatNumber + 1 stays below 2^32; at beatNumber =
2^32 - 1 a beat crossing wraps the counter to 0. -/
theorem C2_incrementTick_behavior (s : TimeKeeper.State)
    (ht : s.tickInBeat < 24) (hb : s.beatNumber + 1 < U32) :
    (s.tickInBeat + 1 = 24 →
      (TimeKeeper.incrementTick s).tickInBeat = 0 ∧
      (TimeKeeper.incrementTick s).beatNumber = s.beatNumber + 1 ∧
      (TimeKeeper.incrementTick s).beatFlag = true) ∧
    (s.tickInBeat + 1 < 24 →
      (TimeKeeper.incrementTick s).tickInBeat = s.tickInBeat + 1 ∧
      (TimeKeeper.incrementTick s).beatNumber = s.beatNumber ∧
      (TimeKeeper.incrementTick s).beatFlag = s.beatFlag) ∧
    (TimeKeeper.incrementTick s).tickInBeat < 24 ∧
    s.beatNumber ≤ (TimeKeeper.incrementTick s).beatNumber ∧
    (TimeKeeper.incrementTick^[24] s).beatNumber = s.beatNumber + 1 := by
  have e2 : (s.beatNumber + 1) % U32 = s.beatNumber + 1 := Nat.mod_eq_of_lt hb
  have hstep := incrementTick_step s ht
  have hiter := incrementTick_closed_form 24 s ht (by omega)
  refine ⟨?_, ?_, ?_, ?_, ?_⟩
  · intro h24
    rw [hstep, if_pos h24]
    exact ⟨rfl, by simpa using e2, rfl⟩
  · intro h24
    rw [hstep, if_neg (by omega)]
    exact ⟨rfl, rfl, rfl⟩
  · rw [hstep]
    split_ifs with h24
    · simp
    · simp
      omega
  · rw [hstep]
    split_ifs with h24
    · simp [e2]
    · simp
  · rw [hiter.2]
    omega

/-- C2 witness: the amended behavior evaluated at the reset state. -/
theorem C2_incrementTick_witness :
    (TimeKeeper.incrementTick^[24] TimeKeeper.resetState).beatNumber = 1 ∧
    (TimeKeeper.incrementTick TimeKeeper.resetState).tickInBeat = 1 := by
  have h := C2_incrementTick_behavior TimeKeeper.resetState (by norm_num [TimeKeeper.resetState])
    (by norm_num [TimeKeeper.resetState, U32])
  constructor
  · have h5 := h.2.2.2.2
    simpa [TimeKeeper.resetState] using h5
  · have h2 := h.2.1 (by norm_num [TimeKeeper.resetState])
    simpa [TimeKeeper.resetState] using h2.1

/-- C3: for every samplePosition and samplesPerBeat spb with spb > 16,
samplesToNextBeat() returns 0 exactly when samplePosition mod spb is at
most 16, and returns spb - (samplePosition mod spb) otherwise. -/
theorem C3_samplesToNextBeat_tolerance (s : TimeKeeper.State)
    (h : 16 < s.samplesPerBeat) :
    (TimeKeeper.samplesToNextBeat s = 0 ↔ s.samplePosition % s.samplesPerBeat ≤ 16) ∧
    (16 < s.samplePosition % s.samplesPerBeat →
      TimeKeeper.samplesToNextBeat s =
        s.samplesPerBeat - s.samplePosition % s.samplesPerBeat) := by
  have hlt : s.samplePosition % s.samplesPerBeat < s.samplesPerBeat :=
    Nat.mod_lt _ (by omega)
  simp only [TimeKeeper.samplesToNextBeat]
  constructor
  · split_ifs with hc
    · omega
    · omega
  · intro hgt
    rw [if_neg (by omega)]

/-- C3 witness: the tolerance behavior at samplePosition 1000 (not near
a boundary) and 22055 (5 samples past a boundary) at 120 BPM. -/
theorem C3_samplesToNextBeat_witness :
    TimeKeeper.samplesToNextBeat
      ⟨1000, 0, 0, 22050, TimeKeeper.TransportState.STOPPED, false⟩ = 21050 ∧
    TimeKeeper.samplesToNextBeat
      ⟨22055, 0, 0, 22050, TimeKeeper.TransportState.STOPPED, false⟩ = 0 := by
  have h1 := C3_samplesToNextBeat_tolerance
    ⟨1000, 0, 0, 22050, TimeKeeper.TransportState.STOPPED, false⟩ (by norm_num)
  have h2 := C3_samplesToNextBeat_tolerance
    ⟨22055, 0, 0, 22050, TimeKeeper.TransportState.STOPPED, false⟩ (by norm_num)
  constructor
  · exact (h1.2 (by norm_num)).trans (by norm_num)
  · exact h2.1.mpr (by norm_num)

/-- C4 counterexample: the claim asserts samplesToNextSubdivision(5512)
returns 4512 at samplePosition 1000 with sample-in-beat 1000 and
samplesPerBeat 22050.  The function is tick-based: at tickInBeat 1
(the tick in effect 1000 samples into the beat) it returns 4594, at
tickInBeat 0 it returns 5512, and the scheduled onset computed by the
choke controller is 5466, not 5384. -/
theorem C4_subdivision_scenario_counterexample :
    TimeKeeper.samplesToNextSubdivision tkScenario 5512 = 4594 ∧
    ¬ TimeKeeper.samplesToNextSubdivision tkScenario 5512 = 4512 ∧
    TimeKeeper.samplesToNextSubdivision { tkScenario with tickInBeat := 0 } 5512 = 5512 ∧
    (ChokeController.handleButtonPress tkScenario
        EffectQuantization.Quantization.QUANT_16 chokeScenario).onsetAtSample = 5466 ∧
    ¬ (ChokeController.handleButtonPress tkScenario
        EffectQuantization.Quantization.QUANT_16 chokeScenario).onsetAtSample = 5384 := by
  refine ⟨?_, ?_, ?_, ?_, ?_⟩ <;> decide

/-- C4 (amended): with samplesPerBeat 22050, QUANT_16 (subdivision
5512) and lookahead 128, a quantized-onset CHOKE press at
samplePosition 1000 with the tick grid at tickInBeat 1 (the tick in
effect 1000 samples into the beat) gives samplesToNextSubdivision(5512)
= 4594, lookahead-adjusted wait 4466 and scheduled onset sample 5466;
the choke engages (enabled, target gain 0, schedule cleared) in the
audio block [5376, 5504) that contains sample 5466, and not in the
preceding block. -/
theorem C4_quantized_onset_scenario :
    EffectQuantization.calculateQuantizedDuration
      EffectQuantization.Quantization.QUANT_16 tkScenario = 5512 ∧
    EffectQuantization.samplesToNextQuantizedBoundary
      EffectQuantization.Quantization.QUANT_16 tkScenario = 4594 ∧
    (ChokeController.handleButtonPress tkScenario
        EffectQuantization.Quantization.QUANT_16 chokeScenario).onsetAtSample = 5466 ∧
    (AudioEffectChoke.updateScheduled 5376
        (ChokeController.handleButtonPress tkScenario
          EffectQuantization.Quantization.QUANT_16 chokeScenario)).isEnabled = true ∧
    (AudioEffectChoke.updateScheduled 5376
        (ChokeController.handleButtonPress tkScenario
          EffectQuantization.Quantization.QUANT_16 chokeScenario)).targetGain = 0 ∧
    (AudioEffectChoke.updateScheduled 5376
        (ChokeController.handleButtonPress tkScenario
          EffectQuantization.Quantization.QUANT_16 chokeScenario)).onsetAtSample = 0 ∧
    (AudioEffectChoke.updateScheduled 5248
        (ChokeController.handleButtonPress tkScenario
          EffectQuantization.Quantization.QUANT_16 chokeScenario)).isEnabled = false := by
  refine ⟨?_, ?_, ?_, ?_, ?_, ?_, ?_⟩ <;> decide

/-- C9: for every subdivision sub with 1 <= sub < 2^32 and every
samplesPerBeat spb with 24 <= spb < 2^32 (the uint32 ranges of the
source types), in a state with a valid tick counter (tickInBeat < 24),
samplesToNextSubdivision(sub) is strictly positive - it has no on-time
tolerance, including when the next-boundary product wraps around
uint32 - and a press landing exactly on a subdivision boundary whose
next boundary stays within the beat is scheduled a full subdivision
later. -/
theorem C9_subdivision_strictly_positive (s : TimeKeeper.State) (sub : Nat)
    (hspb : 24 ≤ s.samplesPerBeat) (hspb32 : s.samplesPerBeat < U32)
    (ht : s.tickInBeat < 24) (hsub : 1 ≤ sub) (hsub32 : sub < U32) :
    0 < TimeKeeper.samplesToNextSubdivision s sub ∧
    (sub < s.samplesPerBeat →
      s.tickInBeat * (s.samplesPerBeat / 24) % sub = 0 →
      s.tickInBeat * (s.samplesPerBeat / 24) + sub ≤ s.samplesPerBeat →
      TimeKeeper.samplesToNextSubdivision s sub = sub) := by
  have hq1 : 1 ≤ s.samplesPerBeat / 24 := (Nat.one_le_div_iff (by norm_num)).mpr hspb
  have hq2 : s.samplesPerBeat / 24 * 24 ≤ s.samplesPerBeat := Nat.div_mul_le_self _ _
  have hel1 : s.tickInBeat * (s.samplesPerBeat / 24) ≤ 23 * (s.samplesPerBeat / 24) :=
    Nat.mul_le_mul_right _ (by omega)
  have hel2 : s.tickInBeat * (s.samplesPerBeat / 24) < s.samplesPerBeat := by omega
  have helmod : (s.tickInBeat * (s.samplesPerBeat / 24)) % U32 =
      s.tickInBeat * (s.samplesPerBeat / 24) :=
    Nat.mod_eq_of_lt (lt_trans hel2 hspb32)
  have hdm := Nat.div_add_mod (s.tickInBeat * (s.samplesPerBeat / 24)) sub
  have hr : (s.tickInBeat * (s.samplesPerBeat / 24)) % sub < sub := Nat.mod_lt _ (by omega)
  have hmul : ((s.tickInBeat * (s.samplesPerBeat / 24)) / sub + 1) * sub =
      sub * ((s.tickInBeat * (s.samplesPerBeat / 24)) / sub) + sub := by ring
  simp only [TimeKeeper.samplesToNextSubdivision, TimeKeeper.MIDI_PPQN, helmod]
  constructor
  · split_ifs with h1 h2
    · simp only [U32] at *
      omega
    · simp only [U32] at *
      omega
    · simp only [U32] at *
      omega
  · intro hsublt hmod hle
    rw [if_neg (by omega)]
    have hP : ((s.tickInBeat * (s.samplesPerBeat / 24)) / sub + 1) * sub =
        s.tickInBeat * (s.samplesPerBeat / 24) + sub := by omega
    rw [hP]
    have hnextmod : (s.tickInBeat * (s.samplesPerBeat / 24) + sub) % U32 =
        s.tickInBeat * (s.samplesPerBeat / 24) + sub := Nat.mod_eq_of_lt (by omega)
    rw [hnextmod, if_neg (by omega)]
    simp only [U32] at *
    omega

/-- C9 witness: positivity and the on-boundary case at 120 BPM with
the 1/16 subdivision. -/
theorem C9_subdivision_positive_witness :
    0 < TimeKeeper.samplesToNextSubdivision tkScenario 5512 ∧
    TimeKeeper.samplesToNextSubdivision { tkScenario with tickInBeat := 0 } 5512 = 5512 := by
  have h1 := C9_subdivision_strictly_positive tkScenario 5512
    (by decide) (by decide) (by decide) (by decide) (by decide)
  have h2 := C9_subdivision_strictly_positive { tkScenario with tickInBeat := 0 } 5512
    (by decide) (by decide) (by decide) (by decide) (by decide)
  exact ⟨h1.1, h2.2 (by decide) (by decide) (by decide)⟩

/-- C10: the command plane fallback maps EFFECT_DISABLE on STUTTER to
the engine disable(), which discards the captured loop irreversibly -
state IDLE_NO_LOOP with captureLength, writePos and readPos all 0 -
whereas stopPlayback() moves to IDLE_WITH_LOOP and keeps the captured
loop (captureLength, writePos, readPos) intact. -/
theorem C10_disable_discards_stopPlayback_keeps (s : AudioEffectStutter.State) :
    executeCommandOnStutter CommandType.EFFECT_DISABLE s = AudioEffectStutter.disable s ∧
    (AudioEffectStutter.disable s).state = StutterState.IDLE_NO_LOOP ∧
    (AudioEffectStutter.disable s).captureLength = 0 ∧
    (AudioEffectStutter.disable s).writePos = 0 ∧
    (AudioEffectStutter.disable s).readPos = 0 ∧
    (AudioEffectStutter.stopPlayback s).state = StutterState.IDLE_WITH_LOOP ∧
    (AudioEffectStutter.stopPlayback s).captureLength = s.captureLength ∧
    (AudioEffectStutter.stopPlayback s).writePos = s.writePos ∧
    (AudioEffectStutter.stopPlayback s).readPos = s.readPos :=
  ⟨rfl, rfl, rfl, rfl, rfl, rfl, rfl, rfl, rfl⟩

/- Helper: the capture write never moves the write position backwards
   or past the buffer end. -/
theorem captureAdvance_bounds (wp : Nat) (h : wp ≤ AudioEffectStutter.STUTTER_BUFFER_SAMPLES) :
    wp ≤ AudioEffectStutter.captureAdvance wp ∧
    AudioEffectStutter.captureAdvance wp ≤ AudioEffectStutter.STUTTER_BUFFER_SAMPLES := by
  unfold AudioEffectStutter.captureAdvance
  split_ifs with h1 <;> omega

/- Helper: one playback read advance stays below a positive capture
   length. -/
theorem advanceRead_lt (len rp : Nat) (h : 0 < len) :
    AudioEffectStutter.advanceRead len rp < len := by
  unfold AudioEffectStutter.advanceRead
  split_ifs <;> omega

/- Helper: the iterated playback read advance stays below a positive
   capture length. -/
theorem advanceReadN_lt (n : Nat) : ∀ (len rp : Nat), 0 < len → rp < len →
    AudioEffectStutter.advanceReadN n len rp < len := by
  induction n with
  | zero =>
    intro len rp _ h2
    simpa [AudioEffectStutter.advanceReadN] using h2
  | succ n ih =>
    intro len rp h h2
    simpa [AudioEffectStutter.advanceReadN] using
      ih len (AudioEffectStutter.advanceRead len rp) h (advanceRead_lt len rp h)

/- Invariant preservation lemmas, one per engine operation. -/
theorem stInv_enable (s : AudioEffectStutter.State) (h : StInv s) :
    StInv (AudioEffectStutter.enable s) := by
  obtain ⟨h1, h2, h3⟩ := h
  refine ⟨by simpa [AudioEffectStutter.enable] using h1,
    by simpa [AudioEffectStutter.enable] using h2, ?_⟩
  intro _ hlen
  simp only [AudioEffectStutter.enable] at hlen ⊢
  simpa using hlen

theorem stInv_disable (s : AudioEffectStutter.State) (_h : StInv s) :
    StInv (AudioEffectStutter.disable s) := by
  refine ⟨by simp [AudioEffectStutter.disable], ?_, ?_⟩
  · simp [AudioEffectStutter.disable, AudioEffectStutter.STUTTER_BUFFER_SAMPLES]
  · intro hx
    simp [AudioEffectStutter.disable] at hx

theorem stInv_toggle (s : AudioEffectStutter.State) (h : StInv s) :
    StInv (AudioEffectStutter.toggle s) := by
  unfold AudioEffectStutter.toggle
  split_ifs with hc
  · exact stInv_disable s h
  · exact stInv_enable s h

theorem stInv_startCapture (s : AudioEffectStutter.State) (_h : StInv s) :
    StInv (AudioEffectStutter.startCapture s) := by
  refine ⟨by simp [AudioEffectStutter.startCapture], ?_, ?_⟩
  · simp [AudioEffectStutter.startCapture, AudioEffectStutter.STUTTER_BUFFER_SAMPLES]
  · intro hx
    simp [AudioEffectStutter.startCapture] at hx

theorem stInv_scheduleCaptureStart (sample : Nat) (s : AudioEffectStutter.State) (h : StInv s) :
    StInv (AudioEffectStutter.scheduleCaptureStart sample s) := by
  obtain ⟨h1, h2, h3⟩ := h
  refine ⟨by simpa [AudioEffectStutter.scheduleCaptureStart] using h1,
    by simpa [AudioEffectStutter.scheduleCaptureStart] using h2, ?_⟩
  intro hx
  simp [AudioEffectStutter.scheduleCaptureStart] at hx

theorem stInv_cancelCaptureStart (s : AudioEffectStutter.State) (h : StInv s) :
    StInv (AudioEffectStutter.cancelCaptureStart s) := by
  obtain ⟨h1, h2, h3⟩ := h
  refine ⟨by simpa [AudioEffectStutter.cancelCaptureStart] using h1,
    by simpa [AudioEffectStutter.cancelCaptureStart] using h2, ?_⟩
  intro hx
  simp [AudioEffectStutter.cancelCaptureStart] at hx

theorem stInv_endCapture (held : Bool) (s : AudioEffectStutter.State) (h : StInv s) :
    StInv (AudioEffectStutter.endCapture held s) := by
  obtain ⟨h1, h2, h3⟩ := h
  unfold AudioEffectStutter.endCapture
  split_ifs with hw hh
  · refine ⟨by simp, by simpa using h2, ?_⟩
    intro _ _
    simpa using hw
  · refine ⟨by simp, by simpa using h2, ?_⟩
    intro hx
    simp at hx
  · refine ⟨by simpa using h1, by simpa using h2, ?_⟩
    intro hx
    simp at hx

theorem stInv_scheduleCaptureEnd (sample : Nat) (held : Bool)
    (s : AudioEffectStutter.State) (h : StInv s) :
    StInv (AudioEffectStutter.scheduleCaptureEnd sample held s) := by
  obtain ⟨h1, h2, h3⟩ := h
  refine ⟨by simpa [AudioEffectStutter.scheduleCaptureEnd] using h1,
    by simpa [AudioEffectStutter.scheduleCaptureEnd] using h2, ?_⟩
  intro hx
  simp [AudioEffectStutter.scheduleCaptureEnd] at hx

theorem stInv_startPlayback (s : AudioEffectStutter.State) (h : StInv s) :
    StInv (AudioEffectStutter.startPlayback s) := by
  obtain ⟨h1, h2, h3⟩ := h
  refine ⟨by simpa [AudioEffectStutter.startPlayback] using h1,
    by simpa [AudioEffectStutter.startPlayback] using h2, ?_⟩
  intro _ hlen
  simp only [AudioEffectStutter.startPlayback] at hlen ⊢
  simpa using hlen

theorem stInv_schedulePlaybackOnset (sample : Nat) (s : AudioEffectStutter.State) (h : StInv s) :
    StInv (AudioEffectStutter.schedulePlaybackOnset sample s) := by
  obtain ⟨h1, h2, h3⟩ := h
  refine ⟨by simpa [AudioEffectStutter.schedulePlaybackOnset] using h1,
    by simpa [AudioEffectStutter.schedulePlaybackOnset] using h2, ?_⟩
  intro hx
  simp [AudioEffectStutter.schedulePlaybackOnset] at hx

theorem stInv_stopPlayback (s : AudioEffectStutter.State) (h : StInv s) :
    StInv (AudioEffectStutter.stopPlayback s) := by
  obtain ⟨h1, h2, h3⟩ := h
  refine ⟨by simpa [AudioEffectStutter.stopPlayback] using h1,
    by simpa [AudioEffectStutter.stopPlayback] using h2, ?_⟩
  intro hx
  simp [AudioEffectStutter.stopPlayback] at hx

theorem stInv_schedulePlaybackLength (sample : Nat) (s : AudioEffectStutter.State) (h : StInv s) :
    StInv (AudioEffectStutter.schedulePlaybackLength sample s) := by
  obtain ⟨h1, h2, h3⟩ := h
  refine ⟨by simpa [AudioEffectStutter.schedulePlaybackLength] using h1,
    by simpa [AudioEffectStutter.schedulePlaybackLength] using h2, ?_⟩
  intro hx
  simp [AudioEffectStutter.schedulePlaybackLength] at hx

theorem stInv_captureStartCheck (cs : Nat) (s : AudioEffectStutter.State) (h : StInv s) :
    StInv (AudioEffectStutter.captureStartCheck cs s) := by
  obtain ⟨h1, h2, h3⟩ := h
  unfold AudioEffectStutter.captureStartCheck
  split_ifs with hc
  · refine ⟨by simp, ?_, ?_⟩
    · simp [AudioEffectStutter.STUTTER_BUFFER_SAMPLES]
    · intro hx
      simp at hx
  · exact ⟨h1, h2, h3⟩

theorem stInv_captureEndCheck (cs : Nat) (s : AudioEffectStutter.State) (h : StInv s) :
    StInv (AudioEffectStutter.captureEndCheck cs s) := by
  obtain ⟨h1, h2, h3⟩ := h
  unfold AudioEffectStutter.captureEndCheck
  split_ifs with hc hw hh
  · refine ⟨by simp, by simpa using h2, ?_⟩
    intro _ _
    simpa using hw
  · refine ⟨by simp, by simpa using h2, ?_⟩
    intro hx
    simp at hx
  · refine ⟨by simpa using h1, by simpa using h2, ?_⟩
    intro hx
    simp at hx
  · exact ⟨h1, h2, h3⟩

theorem stInv_playbackOnsetCheck (cs : Nat) (s : AudioEffectStutter.State) (h : StInv s) :
    StInv (AudioEffectStutter.playbackOnsetCheck cs s) := by
  obtain ⟨h1, h2, h3⟩ := h
  unfold AudioEffectStutter.playbackOnsetCheck
  split_ifs with hc
  · refine ⟨by simpa using h1, by simpa using h2, ?_⟩
    intro _ hlen
    simp only [] at hlen ⊢
    simpa using hlen
  · exact ⟨h1, h2, h3⟩

theorem stInv_playbackLengthCheck (cs : Nat) (s : AudioEffectStutter.State) (h : StInv s) :
    StInv (AudioEffectStutter.playbackLengthCheck cs s) := by
  obtain ⟨h1, h2, h3⟩ := h
  unfold AudioEffectStutter.playbackLengthCheck
  split_ifs with hc
  · refine ⟨by simpa using h1, by simpa using h2, ?_⟩
    intro hx
    simp at hx
  · exact ⟨h1, h2, h3⟩

theorem stInv_processBlock (inp alloc : Bool) (s : AudioEffectStutter.State) (h : StInv s) :
    StInv (AudioEffectStutter.processBlock inp alloc s) := by
  obtain ⟨h1, h2, h3⟩ := h
  obtain ⟨hca1, hca2⟩ := captureAdvance_bounds s.writePos h2
  have hN : 0 < AudioEffectStutter.STUTTER_BUFFER_SAMPLES := by
    norm_num [AudioEffectStutter.STUTTER_BUFFER_SAMPLES]
  unfold AudioEffectStutter.processBlock
  split_ifs with hcap hinp hfull hheld hplay halloc
  · refine ⟨by simp, by simpa using hca2, ?_⟩
    intro _ _
    simpa using (by omega : (0:Nat) < AudioEffectStutter.captureAdvance s.writePos)
  · refine ⟨by simp, by simpa using hca2, ?_⟩
    intro hx
    simp at hx
  · refine ⟨by simpa using le_trans h1 hca1, by simpa using hca2, ?_⟩
    intro hx
    simp at hx
    rw [hx] at hcap
    simp at hcap
  · exact ⟨h1, h2, h3⟩
  · refine ⟨by simpa using h1, by simpa using h2, ?_⟩
    intro hx hlen
    have hx2 : s.state = StutterState.PLAYING := by simpa using hx
    have hlen2 : 0 < s.captureLength := by simpa using hlen
    have hrp : s.readPos < s.captureLength := h3 hx2 hlen2
    simpa using advanceReadN_lt AUDIO_BLOCK_SAMPLES s.captureLength s.readPos hlen2 hrp
  · exact ⟨h1, h2, h3⟩
  · exact ⟨h1, h2, h3⟩

theorem stInv_update (cs : Nat) (inp alloc : Bool) (s : AudioEffectStutter.State) (h : StInv s) :
    StInv (AudioEffectStutter.update cs inp alloc s) :=
  stInv_processBlock inp alloc _
    (stInv_playbackLengthCheck cs _
      (stInv_playbackOnsetCheck cs _
        (stInv_captureEndCheck cs _
          (stInv_captureStartCheck cs s h))))

/- Helper: every state reachable by the public operations satisfies
   the inductive invariant. -/
theorem stutter_reachable_StInv (s : AudioEffectStutter.State)
    (h : AudioEffectStutter.Reachable s) : StInv s := by
  induction h with
  | init =>
    refine ⟨by simp [AudioEffectStutter.init], ?_, ?_⟩
    · simp [AudioEffectStutter.init, AudioEffectStutter.STUTTER_BUFFER_SAMPLES]
    · intro hx
      simp [AudioEffectStutter.init] at hx
  | enable _ ih => exact stInv_enable _ ih
  | disable _ ih => exact stInv_disable _ ih
  | toggle _ ih => exact stInv_toggle _ ih
  | startCapture _ ih => exact stInv_startCapture _ ih
  | scheduleCaptureStart sample _ ih => exact stInv_scheduleCaptureStart sample _ ih
  | cancelCaptureStart _ ih => exact stInv_cancelCaptureStart _ ih
  | endCapture held _ ih => exact stInv_endCapture held _ ih
  | scheduleCaptureEnd sample held _ ih => exact stInv_scheduleCaptureEnd sample held _ ih
  | startPlayback _ ih => exact stInv_startPlayback _ ih
  | schedulePlaybackOnset sample _ ih => exact stInv_schedulePlaybackOnset sample _ ih
  | stopPlayback _ ih => exact stInv_stopPlayback _ ih
  | schedulePlaybackLength sample _ ih => exact stInv_schedulePlaybackLength sample _ ih
  | update cs inp alloc _ ih => exact stInv_update cs inp alloc _ ih

/-- C7 counterexample: the claim asserts that in every state reachable
by the public operations, readPos < captureLength holds in PLAYING and
IDLE_NO_LOOP implies captureLength = 0.  Both fail: enable() from the
constructor state reaches PLAYING with readPos = captureLength = 0,
and cancelCaptureStart() after a completed capture reaches
IDLE_NO_LOOP with the stale captureLength 128 still present. -/
theorem C7_invariant_counterexample :
    AudioEffectStutter.Reachable (AudioEffectStutter.enable AudioEffectStutter.init) ∧
    (AudioEffectStutter.enable AudioEffectStutter.init).state = StutterState.PLAYING ∧
    ¬ (AudioEffectStutter.enable AudioEffectStutter.init).readPos <
        (AudioEffectStutter.enable AudioEffectStutter.init).captureLength ∧
    AudioEffectStutter.Reachable
      (AudioEffectStutter.cancelCaptureStart
        (AudioEffectStutter.scheduleCaptureStart 99999
          (AudioEffectStutter.endCapture false
            (AudioEffectStutter.update 0 true true
              (AudioEffectStutter.startCapture AudioEffectStutter.init))))) ∧
    (AudioEffectStutter.cancelCaptureStart
        (AudioEffectStutter.scheduleCaptureStart 99999
          (AudioEffectStutter.endCapture false
            (AudioEffectStutter.update 0 true true
              (AudioEffectStutter.startCapture AudioEffectStutter.init))))).state =
      StutterState.IDLE_NO_LOOP ∧
    (AudioEffectStutter.cancelCaptureStart
        (AudioEffectStutter.scheduleCaptureStart 99999
          (AudioEffectStutter.endCapture false
            (AudioEffectStutter.update 0 true true
              (AudioEffectStutter.startCapture AudioEffectStutter.init))))).captureLength =
      128 := by
  refine ⟨AudioEffectStutter.Reachable.enable AudioEffectStutter.Reachable.init,
    by decide, by decide,
    AudioEffectStutter.Reachable.cancelCaptureStart
      (AudioEffectStutter.Reachable.scheduleCaptureStart 99999
        (AudioEffectStutter.Reachable.endCapture false
          (AudioEffectStutter.Reachable.update 0 true true
            (AudioEffectStutter.Reachable.startCapture AudioEffectStutter.Reachable.init)))),
    by decide, by decide⟩

/-- C7 (amended): in every state of the STUTTER engine reachable by
any sequence of its public operations, captureLength stays at most
STUTTER_BUFFER_SAMPLES, and in PLAYING readPos < captureLength holds
whenever captureLength is positive.  The unconditional PLAYING bound
and the IDLE_NO_LOOP implication of the original claim fail (see the
counterexample): enable() enters PLAYING without a captured loop, and
cancelCaptureStart() returns to IDLE_NO_LOOP without clearing a
previously captured length. -/
theorem C7_stutter_reachable_invariant (s : AudioEffectStutter.State)
    (h : AudioEffectStutter.Reachable s) :
    s.captureLength ≤ AudioEffectStutter.STUTTER_BUFFER_SAMPLES ∧
    (s.state = StutterState.PLAYING → 0 < s.captureLength →
      s.readPos < s.captureLength) := by
  obtain ⟨h1, h2, h3⟩ := stutter_reachable_StInv s h
  exact ⟨le_trans h1 h2, h3⟩

/-- C7 witness: the amended invariant evaluated at the constructor
state. -/
theorem C7_stutter_invariant_witness :
    AudioEffectStutter.init.captureLength ≤ AudioEffectStutter.STUTTER_BUFFER_SAMPLES ∧
    (AudioEffectStutter.init.state = StutterState.PLAYING →
      0 < AudioEffectStutter.init.captureLength →
      AudioEffectStutter.init.readPos < AudioEffectStutter.init.captureLength) :=
  C7_stutter_reachable_invariant AudioEffectStutter.init AudioEffectStutter.Reachable.init

/- Helper: an unscheduled capture start leaves the check inert. -/
theorem captureStartCheck_skip (cs : Nat) (s : AudioEffectStutter.State)
    (h : s.captureStartAtSample = 0) :
    AudioEffectStutter.captureStartCheck cs s = s := by
  unfold AudioEffectStutter.captureStartCheck
  rw [if_neg]
  rintro ⟨hx, -, -⟩
  omega

/- Helper: an unscheduled playback onset leaves the check inert. -/
theorem playbackOnsetCheck_skip (cs : Nat) (s : AudioEffectStutter.State)
    (h : s.playbackOnsetAtSample = 0) :
    AudioEffectStutter.playbackOnsetCheck cs s = s := by
  unfold AudioEffectStutter.playbackOnsetCheck
  rw [if_neg]
  rintro ⟨hx, -, -⟩
  omega

/- Helper: an unscheduled playback length leaves the check inert. -/
theorem playbackLengthCheck_skip (cs : Nat) (s : AudioEffectStutter.State)
    (h : s.playbackLengthAtSample = 0) :
    AudioEffectStutter.playbackLengthCheck cs s = s := by
  unfold AudioEffectStutter.playbackLengthCheck
  rw [if_neg]
  rintro ⟨hx, -, -⟩
  omega

/- Helper: a capture end that is absent or still in the future leaves
   the check inert. -/
theorem captureEndCheck_skip (cs : Nat) (s : AudioEffectStutter.State)
    (h : s.captureEndAtSample = 0 ∨ cs < s.captureEndAtSample) :
    AudioEffectStutter.captureEndCheck cs s = s := by
  unfold AudioEffectStutter.captureEndCheck
  rw [if_neg]
  rintro ⟨hx1, hx2, -⟩
  rcases h with h | h <;> omega

/- Helper: the state-machine switch leaves an idle state unchanged. -/
theorem processBlock_id_of_idle (inp alloc : Bool) (s : AudioEffectStutter.State)
    (h : s.state = StutterState.IDLE_NO_LOOP ∨ s.state = StutterState.IDLE_WITH_LOOP) :
    AudioEffectStutter.processBlock inp alloc s = s := by
  unfold AudioEffectStutter.processBlock
  rw [if_neg (by rcases h with h | h <;> rw [h] <;> simp),
    if_neg (by rcases h with h | h <;> rw [h] <;> simp)]

/- Helper: in PLAYING the state-machine switch only advances the read
   position. -/
theorem processBlock_playing_fields (inp alloc : Bool) (s : AudioEffectStutter.State)
    (h : s.state = StutterState.PLAYING) :
    (AudioEffectStutter.processBlock inp alloc s).state = StutterState.PLAYING ∧
    (AudioEffectStutter.processBlock inp alloc s).captureLength = s.captureLength ∧
    (AudioEffectStutter.processBlock inp alloc s).captureEndAtSample = s.captureEndAtSample := by
  unfold AudioEffectStutter.processBlock
  rw [if_neg (by rw [h]; simp), if_pos (Or.inl h)]
  split_ifs with halloc
  · exact ⟨by simpa using h, by simp, by simp⟩
  · exact ⟨h, rfl, rfl⟩

/-- C6: whenever a STUTTER capture terminates - by the free endCapture
operation, by a scheduled capture-end firing in the current block, or
by the buffer filling during CAPTURING or WAIT_CAPTURE_END - the next
state is PLAYING when the stutter-held flag in effect (the endCapture
argument for the free path, the latched field for the scheduled and
buffer-full paths) is true and the captured length is positive,
IDLE_WITH_LOOP when the flag is false and the length is positive, and
IDLE_NO_LOOP when the captured length is zero; a buffer-full
termination also clears any pending scheduled capture end.  The
hypotheses captureLength ≤ writePos and the absent other schedules are
invariants of the states in which a capture can be in progress. -/
theorem C6_capture_termination :
    (∀ (s : AudioEffectStutter.State) (held : Bool),
      s.captureLength ≤ s.writePos →
      ((0 < (AudioEffectStutter.endCapture held s).captureLength →
        (AudioEffectStutter.endCapture held s).state =
          if held then StutterState.PLAYING else StutterState.IDLE_WITH_LOOP) ∧
      ((AudioEffectStutter.endCapture held s).captureLength = 0 →
        (AudioEffectStutter.endCapture held s).state = StutterState.IDLE_NO_LOOP))) ∧
    (∀ (s : AudioEffectStutter.State) (currentSample : Nat) (inputAvail allocAvail : Bool),
      s.captureLength ≤ s.writePos →
      s.captureStartAtSample = 0 →
      s.playbackOnsetAtSample = 0 →
      s.playbackLengthAtSample = 0 →
      0 < s.captureEndAtSample →
      s.captureEndAtSample ≤ currentSample →
      ((0 < (AudioEffectStutter.update currentSample inputAvail allocAvail s).captureLength →
        (AudioEffectStutter.update currentSample inputAvail allocAvail s).state =
          if s.stutterHeld then StutterState.PLAYING else StutterState.IDLE_WITH_LOOP) ∧
      ((AudioEffectStutter.update currentSample inputAvail allocAvail s).captureLength = 0 →
        (AudioEffectStutter.update currentSample inputAvail allocAvail s).state =
          StutterState.IDLE_NO_LOOP) ∧
      (AudioEffectStutter.update currentSample inputAvail allocAvail s).captureEndAtSample = 0)) ∧
    (∀ (s : AudioEffectStutter.State) (currentSample : Nat) (allocAvail : Bool),
      (s.state = StutterState.CAPTURING ∨ s.state = StutterState.WAIT_CAPTURE_END) →
      s.captureStartAtSample = 0 →
      s.playbackOnsetAtSample = 0 →
      s.playbackLengthAtSample = 0 →
      (s.captureEndAtSample = 0 ∨ currentSample < s.captureEndAtSample) →
      AudioEffectStutter.STUTTER_BUFFER_SAMPLES ≤ s.writePos + AUDIO_BLOCK_SAMPLES →
      s.writePos ≤ AudioEffectStutter.STUTTER_BUFFER_SAMPLES →
      ((AudioEffectStutter.update currentSample true allocAvail s).state =
        if s.stutterHeld then StutterState.PLAYING else StutterState.IDLE_WITH_LOOP) ∧
      0 < (AudioEffectStutter.update currentSample true allocAvail s).captureLength ∧
      (AudioEffectStutter.update currentSample true allocAvail s).captureEndAtSample = 0) := by
  have hN : 0 < AudioEffectStutter.STUTTER_BUFFER_SAMPLES := by
    norm_num [AudioEffectStutter.STUTTER_BUFFER_SAMPLES]
  refine ⟨?_, ?_, ?_⟩
  · intro s held hlw
    unfold AudioEffectStutter.endCapture
    rcases Nat.eq_zero_or_pos s.writePos with hw | hw
    · rw [if_neg (by omega)]
      constructor
      · intro hlen
        exfalso
        simp at hlen
        omega
      · intro _
        simp
    · rw [if_pos hw]
      cases hh : held
      · rw [if_neg (by simp)]
        exact ⟨fun _ => by simp, fun hlen => by exfalso; simp at hlen; omega⟩
      · rw [if_pos rfl]
        exact ⟨fun _ => by simp, fun hlen => by exfalso; simp at hlen; omega⟩
  · intro s cs inp alloc hlw hcs hpo hpl hend1 hend2
    unfold AudioEffectStutter.update
    rw [captureStartCheck_skip cs s hcs]
    unfold AudioEffectStutter.captureEndCheck
    rw [if_pos ⟨hend1, hend2, by unfold AUDIO_BLOCK_SAMPLES; omega⟩]
    rcases Nat.eq_zero_or_pos s.writePos with hw | hw
    · rw [if_neg (by omega)]
      rw [playbackOnsetCheck_skip _ _ (by simpa using hpo),
        playbackLengthCheck_skip _ _ (by simpa using hpl),
        processBlock_id_of_idle _ _ _ (Or.inl (by simp))]
      refine ⟨?_, ?_, ?_⟩
      · intro hlen
        exfalso
        simp at hlen
        omega
      · intro _
        simp
      · simp
    · rw [if_pos hw]
      cases hh : s.stutterHeld
      · rw [if_neg (by simp)]
        rw [playbackOnsetCheck_skip _ _ (by simpa using hpo),
          playbackLengthCheck_skip _ _ (by simpa using hpl),
          processBlock_id_of_idle _ _ _ (Or.inr (by simp))]
        refine ⟨?_, ?_, ?_⟩
        · intro _
          simp
        · intro hlen
          exfalso
          simp at hlen
          omega
        · simp
      · rw [if_pos rfl]
        rw [playbackOnsetCheck_skip _ _ (by simpa using hpo),
          playbackLengthCheck_skip _ _ (by simpa using hpl)]
        obtain ⟨e1, e2, e3⟩ := processBlock_playing_fields inp alloc
          { s with
              captureLength := s.writePos
              readPos := 0
              state := StutterState.PLAYING
              captureEndAtSample := 0
              stutterHeld := true } rfl
        refine ⟨?_, ?_, ?_⟩
        · intro _
          rw [e1]
          simp
        · intro hlen
          exfalso
          rw [e2] at hlen
          simp at hlen
          omega
        · rw [e3]
  · intro s cs alloc hstate hcs hpo hpl hskip hfull hwle
    unfold AudioEffectStutter.update
    rw [captureStartCheck_skip _ _ hcs, captureEndCheck_skip _ _ hskip,
      playbackOnsetCheck_skip _ _ hpo, playbackLengthCheck_skip _ _ hpl]
    unfold AudioEffectStutter.processBlock
    rw [if_pos hstate, if_pos rfl]
    have hca : AudioEffectStutter.STUTTER_BUFFER_SAMPLES ≤
        AudioEffectStutter.captureAdvance s.writePos := by
      unfold AudioEffectStutter.captureAdvance
      split_ifs <;> omega
    rw [if_pos hca]
    cases hh : s.stutterHeld
    · rw [if_neg (by simp)]
      refine ⟨by simp, ?_, by simp⟩
      simp
      omega
    · rw [if_pos rfl]
      refine ⟨by simp, ?_, by simp⟩
      simp
      omega

/-- C6 witness: the three termination paths evaluated concretely - a
free endCapture with the button still held after one captured block, a
scheduled capture end firing with the latched flag false, and a
buffer-full termination with a pending capture end that gets
cleared. -/
theorem C6_capture_termination_witness :
    (AudioEffectStutter.endCapture true
      (AudioEffectStutter.update 0 true true
        (AudioEffectStutter.startCapture AudioEffectStutter.init))).state =
      StutterState.PLAYING ∧
    (AudioEffectStutter.update 200 true true
      { AudioEffectStutter.init with
          state := StutterState.WAIT_CAPTURE_END
          writePos := 128
          captureEndAtSample := 150
          stutterHeld := false }).state = StutterState.IDLE_WITH_LOOP ∧
    (AudioEffectStutter.update 0 true true
      { AudioEffectStutter.init with
          state := StutterState.CAPTURING
          writePos := 151100
          captureEndAtSample := 999999
          stutterHeld := true }).state = StutterState.PLAYING ∧
    (AudioEffectStutter.update 0 true true
      { AudioEffectStutter.init with
          state := StutterState.CAPTURING
          writePos := 151100
          captureEndAtSample := 999999
          stutterHeld := true }).captureEndAtSample = 0 := by
  have h := C6_capture_termination
  refine ⟨?_, ?_, ?_, ?_⟩
  · have ha := (h.1 (AudioEffectStutter.update 0 true true
      (AudioEffectStutter.startCapture AudioEffectStutter.init)) true (by decide)).1 (by decide)
    simpa using ha
  · have hb := (h.2.1 { AudioEffectStutter.init with
        state := StutterState.WAIT_CAPTURE_END
        writePos := 128
        captureEndAtSample := 150
        stutterHeld := false } 200 true true
      (by decide) (by decide) (by decide) (by decide) (by decide) (by decide)).1 (by decide)
    simpa using hb
  · have hc := ((h.2.2 { AudioEffectStutter.init with
        state := StutterState.CAPTURING
        writePos := 151100
        captureEndAtSample := 999999
        stutterHeld := true } 0 true
      (by decide) (by decide) (by decide) (by decide) (by decide) (by decide) (by decide))).1
    simpa using hc
  · have hd := ((h.2.2 { AudioEffectStutter.init with
        state := StutterState.CAPTURING
        writePos := 151100
        captureEndAtSample := 999999
        stutterHeld := true } 0 true
      (by decide) (by decide) (by decide) (by decide) (by decide) (by decide) (by decide))).2.2
    simpa using hd

/- Helper: the power-of-two queue size divides the uint32 modulus. -/
theorem two_pow_dvd_U32 (k : Nat) (hk : k ≤ 32) : 2 ^ k ∣ U32 := by
  have h : U32 = 2 ^ 32 := by norm_num [U32]
  rw [h]
  exact pow_dvd_pow 2 hk

/- Helper: adding m preserves the residue of r modulo C exactly when C
   divides m. -/
theorem add_mod_cancel_iff (C r m : Nat) : ((r + m) % C = r % C) ↔ C ∣ m := by
  constructor
  · intro h
    have h2 : Nat.ModEq C r (r + m) := h.symm
    have h3 := (Nat.modEq_iff_dvd' (Nat.le_add_right r m)).mp h2
    simpa using h3
  · rintro ⟨c, rfl⟩
    simp [Nat.add_mul_mod_self_left]

/- Helper: every reachable queue state satisfies the index invariant
   for some element count n. -/
theorem spsc_reachable_inv {T : Type} (k : Nat) (hk : k ≤ 32) (q : SPSCQueue.Queue T)
    (h : SPSCQueue.Reachable (2 ^ k) q) : ∃ n, QInv (2 ^ k) q n := by
  have hC : 0 < 2 ^ k := pow_pos (by norm_num) k
  have hU : 0 < U32 := by norm_num [U32]
  have hdvd := two_pow_dvd_U32 k hk
  induction h with
  | init buf =>
    refine ⟨0, by norm_num [U32], by norm_num [U32], hC, by simp⟩
  | @push q2 item hq ih =>
    obtain ⟨n, hw, hr, hn, he⟩ := ih
    unfold SPSCQueue.push
    split_ifs with hfull
    · exact ⟨n, hw, hr, hn, he⟩
    · have hcond : (((q2.writeIdx + 1) % U32) % 2 ^ k = q2.readIdx % 2 ^ k) ↔
          (2:Nat) ^ k ∣ (n + 1) := by
        rw [he, Nat.mod_add_mod, Nat.mod_mod_of_dvd _ hdvd]
        have hiff := add_mod_cancel_iff (2 ^ k) q2.readIdx (n + 1)
        rw [← Nat.add_assoc] at hiff
        exact hiff
      have hne : ¬ (2:Nat) ^ k ∣ (n + 1) := fun hd => hfull (hcond.mpr hd)
      have hlt : n + 1 < 2 ^ k := by
        rcases Nat.lt_or_ge (n + 1) (2 ^ k) with hx | hx
        · exact hx
        · exact absurd (le_antisymm hn hx ▸ dvd_refl ((2:Nat) ^ k)) hne
      refine ⟨n + 1, Nat.mod_lt _ hU, hr, by omega, ?_⟩
      rw [he, Nat.mod_add_mod, Nat.add_assoc]
  | @pop q2 hq ih =>
    obtain ⟨n, hw, hr, hn, he⟩ := ih
    unfold SPSCQueue.pop
    split_ifs with hempty
    · exact ⟨n, hw, hr, hn, he⟩
    · have hnpos : 0 < n := by
        rcases Nat.eq_zero_or_pos n with h0 | h0
        · exfalso
          apply hempty
          rw [he, h0]
          simp [Nat.mod_eq_of_lt hr]
        · exact h0
      refine ⟨n - 1, hw, Nat.mod_lt _ hU, by omega, ?_⟩
      rw [Nat.mod_add_mod, he]
      congr 1
      omega

/-- C5: for the SPSC queue of power-of-two size C = 2^k (usable
capacity C - 1, one slot kept empty), in every reachable state the
number of stored elements is at most C - 1; push(item) returns true,
stores the item at writeIdx mod C and advances writeIdx exactly when
the stored count is below C - 1, and returns false leaving the queue
unchanged otherwise; pop returns false exactly when readIdx equals
writeIdx; and size() never exceeds capacity(). -/
theorem C5_spsc_push_pop {T : Type} (k : Nat) (hk : k ≤ 32) (q : SPSCQueue.Queue T)
    (h : SPSCQueue.Reachable (2 ^ k) q) (item : T) :
    SPSCQueue.storedCount q + 1 ≤ 2 ^ k ∧
    ((SPSCQueue.push (2 ^ k) item q).1 = true ↔
      SPSCQueue.storedCount q < 2 ^ k - 1) ∧
    ((SPSCQueue.push (2 ^ k) item q).1 = true →
      (SPSCQueue.push (2 ^ k) item q).2.buffer (q.writeIdx % 2 ^ k) = item ∧
      (SPSCQueue.push (2 ^ k) item q).2.writeIdx = (q.writeIdx + 1) % U32 ∧
      (SPSCQueue.push (2 ^ k) item q).2.readIdx = q.readIdx) ∧
    ((SPSCQueue.push (2 ^ k) item q).1 = false →
      (SPSCQueue.push (2 ^ k) item q).2 = q) ∧
    ((SPSCQueue.pop (2 ^ k) q).1 = none ↔ q.readIdx = q.writeIdx) ∧
    SPSCQueue.size (2 ^ k) q = SPSCQueue.storedCount q ∧
    SPSCQueue.size (2 ^ k) q ≤ SPSCQueue.capacity (2 ^ k) := by
  obtain ⟨n, hw, hr, hn, he⟩ := spsc_reachable_inv k hk q h
  have hC : 0 < 2 ^ k := pow_pos (by norm_num) k
  have hU : 0 < U32 := by norm_num [U32]
  have hdvd := two_pow_dvd_U32 k hk
  have hCle : 2 ^ k ≤ U32 := Nat.le_of_dvd hU hdvd
  have hstored : SPSCQueue.storedCount q = n := by
    unfold SPSCQueue.storedCount
    rw [he]
    simp only [U32] at *
    omega
  have hcond : (((q.writeIdx + 1) % U32) % 2 ^ k = q.readIdx % 2 ^ k) ↔ n = 2 ^ k - 1 := by
    rw [he, Nat.mod_add_mod, Nat.mod_mod_of_dvd _ hdvd]
    have hiff := add_mod_cancel_iff (2 ^ k) q.readIdx (n + 1)
    rw [← Nat.add_assoc] at hiff
    rw [hiff]
    constructor
    · intro hd
      have := Nat.le_of_dvd (by omega) hd
      omega
    · intro hx
      rw [show n + 1 = 2 ^ k by omega]
  refine ⟨by omega, ?_, ?_, ?_, ?_, ?_, ?_⟩
  · unfold SPSCQueue.push
    rw [hstored]
    split_ifs with hfull
    · constructor
      · intro hx
        simp at hx
      · intro hx
        exfalso
        have := hcond.mp hfull
        omega
    · constructor
      · intro _
        have hne := fun hx => hfull (hcond.mpr hx)
        omega
      · intro _
        rfl
  · unfold SPSCQueue.push
    split_ifs with hfull
    · intro hx
      simp at hx
    · intro _
      exact ⟨by simp, rfl, rfl⟩
  · unfold SPSCQueue.push
    split_ifs with hfull
    · intro _
      rfl
    · intro hx
      simp at hx
  · unfold SPSCQueue.pop
    split_ifs with hempty
    · simp [hempty]
    · simp [hempty]
  · unfold SPSCQueue.size
    rw [show (q.writeIdx + U32 - q.readIdx) % U32 = SPSCQueue.storedCount q from rfl, hstored]
    exact Nat.mod_eq_of_lt (by omega)
  · unfold SPSCQueue.size SPSCQueue.capacity
    rw [show (q.writeIdx + U32 - q.readIdx) % U32 = SPSCQueue.storedCount q from rfl, hstored]
    rw [Nat.mod_eq_of_lt (by omega)]
    omega

/-- C5 witness: a fresh size-4 queue accepts a push and reports empty
on pop. -/
theorem C5_spsc_witness :
    (SPSCQueue.push (2 ^ 2) 7 (⟨0, 0, fun _ => 0⟩ : SPSCQueue.Queue Nat)).1 = true ∧
    (SPSCQueue.pop (2 ^ 2) (⟨0, 0, fun _ => 0⟩ : SPSCQueue.Queue Nat)).1 = none := by
  have h := C5_spsc_push_pop 2 (by norm_num) (⟨0, 0, fun _ => 0⟩ : SPSCQueue.Queue Nat)
    (SPSCQueue.Reachable.init _) 7
  exact ⟨h.2.1.mpr (by decide), h.2.2.2.2.1.mpr rfl⟩

/-- C8 counterexample: the claim asserts that applying ENABLE to an
already-enabled FREEZE leaves the observable audio unchanged.  In the
frozen state freezeLoopState (enabled, readPos 128, writePos 0),
enable() resets readPos to writePos, and the next frozen output block
differs: it starts at buffer slot 0 instead of slot 128. -/
theorem C8_freeze_reenable_counterexample :
    freezeLoopState.isEnabled = true ∧
    (AudioEffectFreeze.enable freezeLoopState).isEnabled = true ∧
    AudioEffectFreeze.frozenBlockL (AudioEffectFreeze.enable freezeLoopState) ≠
      AudioEffectFreeze.frozenBlockL freezeLoopState := by
  refine ⟨rfl, rfl, ?_⟩
  decide

/-- C8 (amended): for CHOKE the claim holds on every state satisfying
the engine gain invariant (targetGain 0 when enabled, 1 when
disabled): ENABLE when enabled leaves the engine state unchanged and
TOGGLE twice restores it.  For FREEZE, enable() unconditionally resets
readPos to writePos, so ENABLE when enabled - and TOGGLE twice -
restore the state only when readPos already equals writePos; otherwise
the loop phase jumps and the output changes (see the
counterexample). -/
theorem C8_enable_toggle_idempotence :
    (∀ c : AudioEffectChoke.State, c.isEnabled = true → c.targetGain = 0 →
      AudioEffectChoke.enable c = c) ∧
    (∀ c : AudioEffectChoke.State,
      (c.isEnabled = true → c.targetGain = 0) →
      (c.isEnabled = false → c.targetGain = 1) →
      AudioEffectChoke.toggle (AudioEffectChoke.toggle c) = c) ∧
    (∀ f : AudioEffectFreeze.State, f.isEnabled = true → f.readPos = f.writePos →
      AudioEffectFreeze.enable f = f) ∧
    (∀ f : AudioEffectFreeze.State, f.readPos = f.writePos →
      AudioEffectFreeze.toggle (AudioEffectFreeze.toggle f) = f) := by
  refine ⟨?_, ?_, ?_, ?_⟩
  · intro c h1 h2
    cases c
    simp_all [AudioEffectChoke.enable]
  · intro c h1 h2
    cases c with
    | mk cg tg en lm om ra oa =>
      cases en
      · simp_all [AudioEffectChoke.toggle, AudioEffectChoke.enable, AudioEffectChoke.disable]
      · simp_all [AudioEffectChoke.toggle, AudioEffectChoke.enable, AudioEffectChoke.disable]
  · intro f h1 h2
    cases f
    simp_all [AudioEffectFreeze.enable]
  · intro f h
    cases f with
    | mk wp rp en ra oa bl br =>
      cases en <;>
        simp_all [AudioEffectFreeze.toggle, AudioEffectFreeze.enable, AudioEffectFreeze.disable]

/-- C8 witness: the amended no-op laws evaluated at concrete states -
an enabled choke with gain invariant, the disabled initial choke under
a double toggle, and a frozen FREEZE at the engage point readPos =
writePos. -/
theorem C8_enable_toggle_witness :
    AudioEffectChoke.enable { AudioEffectChoke.init with targetGain := 0, isEnabled := true } =
      { AudioEffectChoke.init with targetGain := 0, isEnabled := true } ∧
    AudioEffectChoke.toggle (AudioEffectChoke.toggle AudioEffectChoke.init) =
      AudioEffectChoke.init ∧
    AudioEffectFreeze.toggle (AudioEffectFreeze.toggle { freezeLoopState with readPos := 0 }) =
      { freezeLoopState with readPos := 0 } := by
  have h := C8_enable_toggle_idempotence
  refine ⟨h.1 _ rfl rfl, h.2.1 _ ?_ (fun _ => rfl), h.2.2.2 _ rfl⟩
  intro hx
  exact absurd hx (by decide)
